import Mathlib

/-!
Verification of `src/add_ids_to_pictos.py`, a utility that reads a JSON file
whose root is a list, assigns each element a sequential 1-based `id` field,
and writes the result back.

The embedding models JSON values (`JVal`), Python dict key assignment
(`setKey`), the annotation loop of `add_ids_to_pictos` (which raises a
`TypeError` when an element does not support key assignment), and the
driver `main` over an abstract filesystem.
-/

/-- A JSON value as produced by the json module: null, booleans, numbers,
strings, arrays, and objects (insertion-ordered key/value pair lists, as
Python dicts preserve insertion order). -/
inductive JVal : Type where
  | null : JVal
  | bool : Bool → JVal
  | num : Int → JVal
  | str : String → JVal
  | arr : List JVal → JVal
  | obj : List (String × JVal) → JVal

/-- Python name of the runtime type of a JSON value (used in TypeError text). -/
def pyTypeName : JVal → String
  | .null => "NoneType"
  | .bool _ => "bool"
  | .num _ => "int"
  | .str _ => "str"
  | .arr _ => "list"
  | .obj _ => "dict"

/-- Python dict assignment `d[k] = v`: if the key is present, its value is
replaced in place (the key keeps its position); otherwise the pair is
appended at the end, as Python dicts preserve insertion order. -/
def setKey : List (String × JVal) → String → JVal → List (String × JVal)
  | [], k, v => [(k, v)]
  | (k0, v0) :: rest, k, v =>
    if k0 = k then (k0, v) :: rest else (k0, v0) :: setKey rest k v

/-- Python dict lookup `d.get(k)`: the value at the first matching key. -/
def lookupKey : List (String × JVal) → String → Option JVal
  | [], _ => none
  | (k0, v0) :: rest, k => if k0 = k then some v0 else lookupKey rest k

/-- Removing every pair with the given key (used to state frame conditions
about fields other than `id`). -/
def eraseKey : List (String × JVal) → String → List (String × JVal)
  | [], _ => []
  | (k0, v0) :: rest, k =>
    if k0 = k then eraseKey rest k else (k0, v0) :: eraseKey rest k

/-- Whether the value is a JSON array (a Python list). -/
def isArr : JVal → Bool
  | .arr _ => true
  | _ => false

/-- Whether the value is a JSON object (a Python dict, supporting key
assignment). -/
def isObj : JVal → Bool
  | .obj _ => true
  | _ => false

/-- The errors the script can raise. Each carries the text that `str(e)`
would produce. -/
inductive PyError : Type where
  | fileNotFound : String → PyError
  | parseError : String → PyError
  | valueError : String → PyError
  | typeError : String → PyError
  | writeError : String → PyError
deriving DecidableEq

/-- The message of the ValueError raised at line 30 of the script. -/
def shapeErrorMsg : String := "The JSON file does not contain a list at the root level"

/-- The text `str(e)` of an error, as interpolated by the driver. -/
def errMsg : PyError → String
  | .fileNotFound p => "[Errno 2] No such file or directory: " ++ p
  | .parseError m => m
  | .valueError m => m
  | .typeError m => m
  | .writeError m => m

/-- One step of the annotation loop: `picto['id'] = i + 1` (line 34).
A dict gets its `id` key set; any other value raises a TypeError, as
Python item assignment does on non-mapping values. -/
def assignId (v : JVal) (i : Nat) : Except PyError JVal :=
  match v with
  | .obj fields => .ok (.obj (setKey fields "id" (.num (Int.ofNat (i + 1)))))
  | v => .error (.typeError (pyTypeName v ++ " object does not support item assignment"))

/-- The annotation loop (lines 33 to 34): `for i, picto in enumerate(pictos):
picto['id'] = i + 1`, starting enumeration at index `i`. The first element
that does not support key assignment aborts the loop with its TypeError. -/
def addIdsLoop : List JVal → Nat → Except PyError (List JVal)
  | [], _ => .ok []
  | v :: rest, i =>
    match assignId v i with
    | .error e => .error e
    | .ok w =>
      match addIdsLoop rest (i + 1) with
      | .error e => .error e
      | .ok ws => .ok (w :: ws)

/-- The pure core of `add_ids_to_pictos` (lines 29 to 40) applied to the
parsed document: reject a non-list root with a ValueError, annotate each
element, and return the document to be written together with
`len(pictos)`. -/
def add_ids_to_pictos (doc : JVal) : Except PyError (JVal × Nat) :=
  match doc with
  | .arr pictos =>
    match addIdsLoop pictos 0 with
    | .error e => .error e
    | .ok out => .ok (.arr out, out.length)
  | _ => .error (.valueError shapeErrorMsg)

/-- The content of a file relevant to the script: either text that is not
valid JSON (carrying the decoder message that `json.load` would raise) or a
parsed JSON document. -/
inductive FileContent : Type where
  | invalidJson : String → FileContent
  | json : JVal → FileContent

/-- The filesystem as the script observes it: for each path, the file's
content when it exists, and whether the path can be opened for writing. -/
structure FS : Type where
  files : String → Option FileContent
  writable : String → Bool

/-- Lines 25 to 30 of the script up to the parse: `open` (FileNotFoundError
when the path does not exist) followed by `json.load` (JSONDecodeError, a
ValueError subclass, on invalid JSON). The result depends only on the
content stored at the path. -/
def readParse (content : Option FileContent) (path : String) : Except PyError JVal :=
  match content with
  | none => .error (.fileNotFound path)
  | some (.invalidJson m) => .error (.parseError m)
  | some (.json doc) => .ok doc

/-- The document the run would write and the count it would return:
read and parse, then the pure core. A function of the input path's
content only. -/
def annotateResult (content : Option FileContent) (path : String) : Except PyError (JVal × Nat) :=
  match readParse content path with
  | .error e => .error e
  | .ok doc => add_ids_to_pictos doc

/-- The whole of `add_ids_to_pictos(input_file, output_file=None)` at the
filesystem level (lines 9 to 40): default the output path to the input path,
read, parse, validate, annotate, then write the new document (lines 37 to
38; `open(output_file, 'w')` fails when the path is not writable) and
return the count. -/
def add_ids_to_pictos_run (fs : FS) (input_file : String) (output_file : Option String) :
    Except PyError (FS × Nat) :=
  let out := output_file.getD input_file
  match annotateResult (fs.files input_file) input_file with
  | .error e => .error e
  | .ok (doc, n) =>
    if fs.writable out then
      .ok ({ fs with files := fun p => if p = out then some (.json doc) else fs.files p }, n)
    else
      .error (.writeError ("[Errno 13] Permission denied: " ++ out))

/-- The hardcoded input path of the driver (line 44). -/
def main_input_file : String := "src/assets/pictos_list.json"

/-- The observable outcome of one run of `main` (lines 42 to 58): the line
printed, the returned exit code, the filesystem afterwards, and whether
`add_ids_to_pictos` was invoked. -/
structure MainResult : Type where
  printed : String
  exitCode : Nat
  fs : FS
  annotatorInvoked : Bool

/-- The driver `main` (lines 42 to 58): if the input file does not exist,
print `Error: Input file '...' not found.` and return 1 without calling
`add_ids_to_pictos`; otherwise call it, printing the success message and
returning 0, or catching any exception, printing `Error: ` and `str(e)`,
and returning 1. -/
def main_run (fs : FS) : MainResult :=
  if (fs.files main_input_file).isNone then
    { printed := "Error: Input file '" ++ main_input_file ++ "' not found."
      exitCode := 1
      fs := fs
      annotatorInvoked := false }
  else
    match add_ids_to_pictos_run fs main_input_file none with
    | .ok (fsOut, count) =>
      { printed := "Successfully added IDs to " ++ toString count ++ " pictos in '" ++
          main_input_file ++ "'."
        exitCode := 0
        fs := fsOut
        annotatorInvoked := true }
    | .error e =>
      { printed := "Error: " ++ errMsg e
        exitCode := 1
        fs := fs
        annotatorInvoked := true }

/-- The `id` field of a value, when it is an object. -/
def getId : JVal → Option JVal
  | .obj fields => lookupKey fields "id"
  | _ => none

/-- A value with its `id` field removed, when it is an object. -/
def eraseId : JVal → JVal
  | .obj fields => .obj (eraseKey fields "id")
  | v => v

theorem lookupKey_setKey (r : List (String × JVal)) (k : String) (v : JVal) :
    lookupKey (setKey r k v) k = some v := by
  induction r with
  | nil => simp [setKey, lookupKey]
  | cons p rest ih =>
    obtain ⟨k0, v0⟩ := p
    by_cases h : k0 = k
    · simp [setKey, lookupKey, h]
    · simp [setKey, lookupKey, h, ih]

theorem eraseKey_setKey (r : List (String × JVal)) (k : String) (v : JVal) :
    eraseKey (setKey r k v) k = eraseKey r k := by
  induction r with
  | nil => simp [setKey, eraseKey]
  | cons p rest ih =>
    obtain ⟨k0, v0⟩ := p
    by_cases h : k0 = k
    · simp [setKey, eraseKey, h]
    · simp [setKey, eraseKey, h, ih]

theorem setKey_setKey (r : List (String × JVal)) (k : String) (v w : JVal) :
    setKey (setKey r k v) k w = setKey r k w := by
  induction r with
  | nil => simp [setKey]
  | cons p rest ih =>
    obtain ⟨k0, v0⟩ := p
    by_cases h : k0 = k
    · simp [setKey, h]
    · simp [setKey, h, ih]

theorem addIdsLoop_nil (k : Nat) : addIdsLoop [] k = .ok [] := rfl

theorem addIdsLoop_cons_obj (fields : List (String × JVal)) (rest : List JVal) (k : Nat) :
    addIdsLoop (JVal.obj fields :: rest) k =
      match addIdsLoop rest (k + 1) with
      | .error e => .error e
      | .ok ws => .ok (JVal.obj (setKey fields "id" (.num (Int.ofNat (k + 1)))) :: ws) := by
  simp [addIdsLoop, assignId]

theorem addIdsLoop_length (l : List JVal) (k : Nat) (out : List JVal)
    (h : addIdsLoop l k = .ok out) : out.length = l.length := by
  induction l generalizing k out with
  | nil =>
    simp [addIdsLoop] at h
    simp [h.symm]
  | cons v rest ih =>
    simp only [addIdsLoop] at h
    cases hv : assignId v k with
    | error e => rw [hv] at h; exact absurd h (by simp)
    | ok w =>
      rw [hv] at h
      cases hr : addIdsLoop rest (k + 1) with
      | error e => rw [hr] at h; exact absurd h (by simp)
      | ok ws =>
        rw [hr] at h
        simp only [Except.ok.injEq] at h
        subst h
        simp [ih (k + 1) ws hr]

theorem addIdsLoop_getId (l : List JVal) (k : Nat) (out : List JVal)
    (h : addIdsLoop l k = .ok out) (i : Nat) (hi : i < out.length) :
    getId (out.get ⟨i, hi⟩) = some (.num (Int.ofNat (k + i + 1))) := by
  induction l generalizing k out i with
  | nil =>
    simp [addIdsLoop] at h
    subst h
    simp at hi
  | cons v rest ih =>
    cases v with
    | obj fields =>
      rw [addIdsLoop_cons_obj] at h
      cases hr : addIdsLoop rest (k + 1) with
      | error e => rw [hr] at h; exact absurd h (by simp)
      | ok ws =>
        rw [hr] at h
        simp only [Except.ok.injEq] at h
        subst h
        cases i with
        | zero => simp [List.get, getId, lookupKey_setKey]
        | succ j =>
          have hj : j < ws.length := by simpa using hi
          have hrec := ih (k + 1) ws hr j hj
          have harith : k + 1 + j + 1 = k + (j + 1) + 1 := by omega
          rw [harith] at hrec
          simpa [List.get] using hrec
    | null => simp [addIdsLoop, assignId] at h
    | bool b => simp [addIdsLoop, assignId] at h
    | num m => simp [addIdsLoop, assignId] at h
    | str s => simp [addIdsLoop, assignId] at h
    | arr xs => simp [addIdsLoop, assignId] at h

theorem addIdsLoop_eraseId (l : List JVal) (k : Nat) (out : List JVal)
    (h : addIdsLoop l k = .ok out) (i : Nat) (hi : i < out.length) (hl : i < l.length) :
    eraseId (out.get ⟨i, hi⟩) = eraseId (l.get ⟨i, hl⟩) := by
  induction l generalizing k out i with
  | nil => simp at hl
  | cons v rest ih =>
    cases v with
    | obj fields =>
      rw [addIdsLoop_cons_obj] at h
      cases hr : addIdsLoop rest (k + 1) with
      | error e => rw [hr] at h; exact absurd h (by simp)
      | ok ws =>
        rw [hr] at h
        simp only [Except.ok.injEq] at h
        subst h
        cases i with
        | zero => simp [List.get, eraseId, eraseKey_setKey]
        | succ j =>
          have hj : j < ws.length := by simpa using hi
          have hjl : j < rest.length := by simpa using hl
          have hrec := ih (k + 1) ws hr j hj hjl
          simpa [List.get] using hrec
    | null => simp [addIdsLoop, assignId] at h
    | bool b => simp [addIdsLoop, assignId] at h
    | num m => simp [addIdsLoop, assignId] at h
    | str s => simp [addIdsLoop, assignId] at h
    | arr xs => simp [addIdsLoop, assignId] at h

theorem addIdsLoop_ok_of_forall (l : List JVal) (k : Nat)
    (h : ∀ v ∈ l, isObj v = true) : ∃ out, addIdsLoop l k = .ok out := by
  induction l generalizing k with
  | nil => exact ⟨[], rfl⟩
  | cons v rest ih =>
    have hv : isObj v = true := h v (List.mem_cons_self v rest)
    cases v with
    | obj fields =>
      obtain ⟨ws, hws⟩ := ih (k + 1) (fun u hu => h u (List.mem_cons_of_mem _ hu))
      refine ⟨JVal.obj (setKey fields "id" (.num (Int.ofNat (k + 1)))) :: ws, ?_⟩
      rw [addIdsLoop_cons_obj, hws]
    | null => simp [isObj] at hv
    | bool b => simp [isObj] at hv
    | num m => simp [isObj] at hv
    | str s => simp [isObj] at hv
    | arr xs => simp [isObj] at hv

theorem addIdsLoop_typeError (l : List JVal) (k : Nat)
    (h : ∃ v ∈ l, isObj v = false) : ∃ m, addIdsLoop l k = .error (.typeError m) := by
  induction l generalizing k with
  | nil => obtain ⟨v, hv, _⟩ := h; simp at hv
  | cons v rest ih =>
    cases v with
    | obj fields =>
      obtain ⟨u, hu, hbad⟩ := h
      have hurest : u ∈ rest := by
        rcases List.mem_cons.mp hu with h1 | h2
        · subst h1; simp [isObj] at hbad
        · exact h2
      obtain ⟨m, hm⟩ := ih (k + 1) ⟨u, hurest, hbad⟩
      refine ⟨m, ?_⟩
      rw [addIdsLoop_cons_obj, hm]
    | null =>
      exact ⟨pyTypeName JVal.null ++ " object does not support item assignment",
        by simp [addIdsLoop, assignId]⟩
    | bool b =>
      exact ⟨pyTypeName (JVal.bool b) ++ " object does not support item assignment",
        by simp [addIdsLoop, assignId]⟩
    | num m =>
      exact ⟨pyTypeName (JVal.num m) ++ " object does not support item assignment",
        by simp [addIdsLoop, assignId]⟩
    | str s =>
      exact ⟨pyTypeName (JVal.str s) ++ " object does not support item assignment",
        by simp [addIdsLoop, assignId]⟩
    | arr xs =>
      exact ⟨pyTypeName (JVal.arr xs) ++ " object does not support item assignment",
        by simp [addIdsLoop, assignId]⟩

theorem addIdsLoop_idem (l : List JVal) (k : Nat) (out : List JVal)
    (h : addIdsLoop l k = .ok out) : addIdsLoop out k = .ok out := by
  induction l generalizing k out with
  | nil =>
    simp [addIdsLoop] at h
    subst h
    rfl
  | cons v rest ih =>
    cases v with
    | obj fields =>
      rw [addIdsLoop_cons_obj] at h
      cases hr : addIdsLoop rest (k + 1) with
      | error e => rw [hr] at h; exact absurd h (by simp)
      | ok ws =>
        rw [hr] at h
        simp only [Except.ok.injEq] at h
        subst h
        rw [addIdsLoop_cons_obj, ih (k + 1) ws hr, setKey_setKey]
    | null => simp [addIdsLoop, assignId] at h
    | bool b => simp [addIdsLoop, assignId] at h
    | num m => simp [addIdsLoop, assignId] at h
    | str s => simp [addIdsLoop, assignId] at h
    | arr xs => simp [addIdsLoop, assignId] at h

theorem add_ids_arr_cases (pictos : List JVal) (doc : JVal) (n : Nat)
    (h : add_ids_to_pictos (.arr pictos) = .ok (doc, n)) :
    ∃ out, doc = .arr out ∧ addIdsLoop pictos 0 = .ok out ∧ n = out.length := by
  simp only [add_ids_to_pictos] at h
  cases hr : addIdsLoop pictos 0 with
  | error e => rw [hr] at h; exact absurd h (by simp)
  | ok ws =>
    rw [hr] at h
    simp only [Except.ok.injEq, Prod.mk.injEq] at h
    exact ⟨ws, h.1.symm, rfl, h.2.symm⟩

theorem main_run_notfound (fs : FS) (hex : fs.files main_input_file = none) :
    main_run fs =
      ⟨"Error: Input file '" ++ main_input_file ++ "' not found.", 1, fs, false⟩ := by
  simp [main_run, hex]

theorem main_run_error (fs : FS) (e : PyError)
    (hex : (fs.files main_input_file).isNone = false)
    (hrun : add_ids_to_pictos_run fs main_input_file none = .error e) :
    main_run fs = ⟨"Error: " ++ errMsg e, 1, fs, true⟩ := by
  simp only [main_run, hex, Bool.false_eq_true, if_false]
  rw [hrun]

theorem main_run_ok (fs fsOut : FS) (n : Nat)
    (hex : (fs.files main_input_file).isNone = false)
    (hrun : add_ids_to_pictos_run fs main_input_file none = .ok (fsOut, n)) :
    main_run fs =
      ⟨"Successfully added IDs to " ++ toString n ++ " pictos in '" ++ main_input_file ++ "'.",
        0, fsOut, true⟩ := by
  simp only [main_run, hex, Bool.false_eq_true, if_false]
  rw [hrun]

/-- C1: for every input whose root is a list and whose elements all support
key assignment (so that annotation succeeds), the element at zero-based
position `i` of the output list has its `id` field equal to `i + 1`,
whatever `id` value the element had before. -/
theorem add_ids_id_correct (pictos out : List JVal) (n : Nat)
    (h : add_ids_to_pictos (.arr pictos) = .ok (.arr out, n))
    (i : Nat) (hi : i < out.length) :
    getId (out.get ⟨i, hi⟩) = some (.num (Int.ofNat (i + 1))) := by
  obtain ⟨ws, hdoc, hloop, _⟩ := add_ids_arr_cases pictos (.arr out) n h
  have hws : out = ws := by injection hdoc
  rw [← hws] at hloop
  have := addIdsLoop_getId pictos 0 out hloop i hi
  simpa using this

/-- C1 witness: a two-element list whose first element already carried
`id = 99` comes out with `id = 1` at position 0 and `id = 2` at position 1. -/
theorem add_ids_id_correct_witness :
    getId (List.get
      [JVal.obj [("name", JVal.str "cat"), ("id", JVal.num (Int.ofNat 1))],
       JVal.obj [("name", JVal.str "dog"), ("id", JVal.num (Int.ofNat 2))]]
      ⟨1, Nat.one_lt_two⟩) = some (JVal.num (Int.ofNat 2)) :=
  add_ids_id_correct
    [JVal.obj [("name", JVal.str "cat"), ("id", JVal.num 99)],
     JVal.obj [("name", JVal.str "dog")]]
    [JVal.obj [("name", JVal.str "cat"), ("id", JVal.num (Int.ofNat 1))],
     JVal.obj [("name", JVal.str "dog"), ("id", JVal.num (Int.ofNat 2))]]
    2 rfl 1 Nat.one_lt_two

/-- C2: annotation preserves the sequence — the output has the same length
as the input and, position by position, each output element with its `id`
field removed equals the input element with its `id` field removed. -/
theorem add_ids_frame (pictos out : List JVal) (n : Nat)
    (h : add_ids_to_pictos (.arr pictos) = .ok (.arr out, n)) :
    out.length = pictos.length ∧
    ∀ i (hi : i < out.length) (hp : i < pictos.length),
      eraseId (out.get ⟨i, hi⟩) = eraseId (pictos.get ⟨i, hp⟩) := by
  obtain ⟨ws, hdoc, hloop, _⟩ := add_ids_arr_cases pictos (.arr out) n h
  have hws : out = ws := by injection hdoc
  rw [← hws] at hloop
  exact ⟨addIdsLoop_length pictos 0 out hloop,
    fun i hi hp => addIdsLoop_eraseId pictos 0 out hloop i hi hp⟩

/-- C2 witness: on a concrete one-element input the annotated list has the
same length and the same element once `id` is stripped. -/
theorem add_ids_frame_witness :
    List.length [JVal.obj [("name", JVal.str "cat"), ("id", JVal.num (Int.ofNat 1))]] =
      List.length [JVal.obj [("name", JVal.str "cat")]] ∧
    ∀ i (hi : i < List.length
        [JVal.obj [("name", JVal.str "cat"), ("id", JVal.num (Int.ofNat 1))]])
      (hp : i < List.length [JVal.obj [("name", JVal.str "cat")]]),
      eraseId (List.get
        [JVal.obj [("name", JVal.str "cat"), ("id", JVal.num (Int.ofNat 1))]] ⟨i, hi⟩) =
        eraseId (List.get [JVal.obj [("name", JVal.str "cat")]] ⟨i, hp⟩) :=
  add_ids_frame [JVal.obj [("name", JVal.str "cat")]]
    [JVal.obj [("name", JVal.str "cat"), ("id", JVal.num (Int.ofNat 1))]] 1 rfl

/-- C3: on every successful run of the pure core, the returned count equals
the number of elements of the input sequence, and the empty list maps to
the empty list with count 0. -/
theorem add_ids_count (pictos : List JVal) (doc : JVal) (n : Nat)
    (h : add_ids_to_pictos (.arr pictos) = .ok (doc, n)) :
    n = pictos.length ∧ (pictos = [] → doc = .arr [] ∧ n = 0) := by
  obtain ⟨out, hdoc, hloop, hn⟩ := add_ids_arr_cases pictos doc n h
  have hlen : out.length = pictos.length := addIdsLoop_length pictos 0 out hloop
  refine ⟨hn.trans hlen, fun hp => ?_⟩
  subst hp
  have : out = [] := List.eq_nil_of_length_eq_zero hlen
  subst this
  exact ⟨hdoc, hn⟩

/-- C3 witness: the empty list yields count 0 and writes the empty list. -/
theorem add_ids_count_witness :
    (0 : Nat) = List.length ([] : List JVal) ∧
    (([] : List JVal) = [] → JVal.arr [] = JVal.arr [] ∧ (0 : Nat) = 0) :=
  add_ids_count [] (JVal.arr []) 0 rfl

/-- C4: when the parsed root of the input file is not a list, the run fails
with the shape ValueError and no write happens — through the driver, the
filesystem afterwards is the filesystem before, and the exit code is 1. -/
theorem annotate_shape_no_write (fs : FS) (input_file : String) (output_file : Option String)
    (doc : JVal) (hin : fs.files input_file = some (.json doc)) (hshape : isArr doc = false) :
    add_ids_to_pictos_run fs input_file output_file = .error (.valueError shapeErrorMsg) ∧
    (input_file = main_input_file → (main_run fs).fs = fs ∧ (main_run fs).exitCode = 1) := by
  have hpure : add_ids_to_pictos doc = .error (.valueError shapeErrorMsg) := by
    cases doc with
    | arr xs => simp [isArr] at hshape
    | null => rfl
    | bool b => rfl
    | num m => rfl
    | str s => rfl
    | obj f => rfl
  have hres : annotateResult (fs.files input_file) input_file =
      .error (.valueError shapeErrorMsg) := by
    rw [hin]
    simpa [annotateResult, readParse] using hpure
  have hrunErr : add_ids_to_pictos_run fs input_file output_file =
      .error (.valueError shapeErrorMsg) := by
    simp only [add_ids_to_pictos_run]
    rw [hres]
  refine ⟨hrunErr, fun heq => ?_⟩
  subst heq
  have hex : (fs.files main_input_file).isNone = false := by rw [hin]; rfl
  have hres2 : annotateResult (fs.files main_input_file) main_input_file =
      .error (.valueError shapeErrorMsg) := hres
  have hrun : add_ids_to_pictos_run fs main_input_file none =
      .error (.valueError shapeErrorMsg) := by
    simp only [add_ids_to_pictos_run]
    rw [hres2]
  rw [main_run_error fs _ hex hrun]
  exact ⟨rfl, rfl⟩

/-- A filesystem whose every path holds a JSON object (not a list) and is
writable; used to instantiate driver theorems. -/
def objRootFS : FS :=
  ⟨fun _ => some (.json (.obj [("name", .str "cat")])), fun _ => true⟩

/-- C4 witness: with an object at the root of the input file, the run
errors with the shape ValueError and the driver leaves the filesystem
untouched with exit code 1. -/
theorem annotate_shape_no_write_witness :
    add_ids_to_pictos_run objRootFS main_input_file none =
      .error (.valueError shapeErrorMsg) ∧
    (main_input_file = main_input_file →
      (main_run objRootFS).fs = objRootFS ∧ (main_run objRootFS).exitCode = 1) :=
  annotate_shape_no_write objRootFS main_input_file none
    (.obj [("name", .str "cat")]) rfl rfl

/-- C5 counterexample: at the concrete non-list root `{"name": "cat"}` the
error raised carries the message `The JSON file does not contain a list at
the root level`, not `root value is not a list` as the claim states. -/
theorem shape_error_message_cex :
    add_ids_to_pictos (JVal.obj [("name", JVal.str "cat")]) =
      Except.error (PyError.valueError
        "The JSON file does not contain a list at the root level") ∧
    "The JSON file does not contain a list at the root level" ≠
      "root value is not a list" :=
  ⟨rfl, by decide⟩

/-- C5 amended: when the parsed root value is not a list, the error raised
is a ValueError with message `The JSON file does not contain a list at the
root level`, and the driver reports exactly that message prefixed with
`Error: ` and returns 1. -/
theorem shape_error_message (doc : JVal) (hshape : isArr doc = false) :
    add_ids_to_pictos doc =
      Except.error (PyError.valueError
        "The JSON file does not contain a list at the root level") ∧
    ∀ fs : FS, fs.files main_input_file = some (.json doc) →
      (main_run fs).printed =
        "Error: The JSON file does not contain a list at the root level" ∧
      (main_run fs).exitCode = 1 := by
  have hpure : add_ids_to_pictos doc = .error (.valueError shapeErrorMsg) := by
    cases doc with
    | arr xs => simp [isArr] at hshape
    | null => rfl
    | bool b => rfl
    | num m => rfl
    | str s => rfl
    | obj f => rfl
  refine ⟨hpure, fun fs hin => ?_⟩
  have hex : (fs.files main_input_file).isNone = false := by rw [hin]; rfl
  have hres : annotateResult (fs.files main_input_file) main_input_file =
      .error (.valueError shapeErrorMsg) := by
    rw [hin]
    simpa [annotateResult, readParse] using hpure
  have hrun : add_ids_to_pictos_run fs main_input_file none =
      .error (.valueError shapeErrorMsg) := by
    simp only [add_ids_to_pictos_run]
    rw [hres]
  rw [main_run_error fs _ hex hrun]
  exact ⟨rfl, rfl⟩

/-- C5 amended witness: the object root `{"name": "cat"}` triggers the
ValueError and the driver prints the prefixed message with exit code 1. -/
theorem shape_error_message_witness :
    add_ids_to_pictos (JVal.obj [("name", JVal.str "cat")]) =
      Except.error (PyError.valueError
        "The JSON file does not contain a list at the root level") ∧
    ∀ fs : FS, fs.files main_input_file =
        some (.json (JVal.obj [("name", JVal.str "cat")])) →
      (main_run fs).printed =
        "Error: The JSON file does not contain a list at the root level" ∧
      (main_run fs).exitCode = 1 :=
  shape_error_message (JVal.obj [("name", JVal.str "cat")]) rfl

/-- C6: when the input path does not exist, the driver prints
`Error: Input file '<path>' not found.` — the claimed message with the path
interpolated, behind the `Error: ` prefix — returns exit code 1, and never
invokes `add_ids_to_pictos`. -/
theorem main_missing_file (fs : FS) (h : fs.files main_input_file = none) :
    (main_run fs).printed =
      "Error: " ++ ("Input file '" ++ main_input_file ++ "' not found.") ∧
    (main_run fs).exitCode = 1 ∧
    (main_run fs).annotatorInvoked = false ∧
    (main_run fs).fs = fs := by
  rw [main_run_notfound fs h]
  exact ⟨rfl, rfl, rfl, rfl⟩

/-- A filesystem with no files at all. -/
def emptyFS : FS := ⟨fun _ => none, fun _ => true⟩

/-- C6 witness: on the empty filesystem the driver prints the not-found
message for the hardcoded path, returns 1, and does not invoke the
annotator. -/
theorem main_missing_file_witness :
    (main_run emptyFS).printed =
      "Error: " ++ ("Input file '" ++ main_input_file ++ "' not found.") ∧
    (main_run emptyFS).exitCode = 1 ∧
    (main_run emptyFS).annotatorInvoked = false ∧
    (main_run emptyFS).fs = emptyFS :=
  main_missing_file emptyFS rfl

/-- C7: the driver returns 0 exactly when the read, validate, annotate and
write chain succeeds; otherwise it returns 1 and the printed line starts
with `Error: `. -/
theorem main_exit_codes (fs : FS) :
    ((main_run fs).exitCode = 0 ↔
      ∃ fsOut n, fs.files main_input_file ≠ none ∧
        add_ids_to_pictos_run fs main_input_file none = .ok (fsOut, n)) ∧
    ((main_run fs).exitCode = 0 ∨ (main_run fs).exitCode = 1) ∧
    ((main_run fs).exitCode = 1 → ∃ m, (main_run fs).printed = "Error: " ++ m) := by
  cases hex : fs.files main_input_file with
  | none =>
    rw [main_run_notfound fs hex]
    refine ⟨⟨fun h0 => absurd h0 (by simp), fun hch => ?_⟩, Or.inr rfl,
      fun _ => ⟨"Input file '" ++ main_input_file ++ "' not found.", rfl⟩⟩
    obtain ⟨fsOut, n, hne, _⟩ := hch
    exact absurd rfl hne
  | some c =>
    have hb : (fs.files main_input_file).isNone = false := by rw [hex]; rfl
    cases hrun : add_ids_to_pictos_run fs main_input_file none with
    | ok p =>
      obtain ⟨fsOut, n⟩ := p
      rw [main_run_ok fs fsOut n hb hrun]
      refine ⟨⟨fun _ => ⟨fsOut, n, by simp [hex], rfl⟩, fun _ => rfl⟩, Or.inl rfl,
        fun h1 => absurd h1 (by simp)⟩
    | error e =>
      rw [main_run_error fs e hb hrun]
      refine ⟨⟨fun h0 => absurd h0 (by simp), fun hch => ?_⟩, Or.inr rfl,
        fun _ => ⟨errMsg e, rfl⟩⟩
      obtain ⟨fsOut, n, _, hok⟩ := hch
      exact absurd hok (by simp)

/-- C8: a list containing a non-mapping element makes the annotation loop
raise a TypeError (there is no pre-validation), and the driver then leaves
the filesystem unwritten with exit code 1; conversely a list of mappings
makes the loop succeed. -/
theorem annotate_element_type (pictos : List JVal) :
    ((∃ v ∈ pictos, isObj v = false) →
      ∃ m, addIdsLoop pictos 0 = .error (.typeError m)) ∧
    ((∀ v ∈ pictos, isObj v = true) → ∃ out, addIdsLoop pictos 0 = .ok out) ∧
    (∀ fs : FS, fs.files main_input_file = some (.json (.arr pictos)) →
      (∃ v ∈ pictos, isObj v = false) →
      (main_run fs).fs = fs ∧ (main_run fs).exitCode = 1) := by
  refine ⟨fun hbad => addIdsLoop_typeError pictos 0 hbad,
    fun hall => addIdsLoop_ok_of_forall pictos 0 hall,
    fun fs hin hbad => ?_⟩
  obtain ⟨m, hm⟩ := addIdsLoop_typeError pictos 0 hbad
  have hex : (fs.files main_input_file).isNone = false := by rw [hin]; rfl
  have hres : annotateResult (fs.files main_input_file) main_input_file =
      .error (.typeError m) := by
    rw [hin]
    simp only [annotateResult, readParse, add_ids_to_pictos]
    rw [hm]
  have hrun : add_ids_to_pictos_run fs main_input_file none =
      .error (.typeError m) := by
    simp only [add_ids_to_pictos_run]
    rw [hres]
  rw [main_run_error fs _ hex hrun]
  exact ⟨rfl, rfl⟩

/-- C9: the annotation is idempotent — annotating the document produced by
a successful annotation yields that same document and the same count, so a
second run of the program leaves the file content of the first run. -/
theorem annotate_idempotent (pictos : List JVal) (doc : JVal) (n : Nat)
    (h : add_ids_to_pictos (.arr pictos) = .ok (doc, n)) :
    add_ids_to_pictos doc = .ok (doc, n) := by
  obtain ⟨out, hdoc, hloop, hn⟩ := add_ids_arr_cases pictos doc n h
  subst hdoc
  have h2 := addIdsLoop_idem pictos 0 out hloop
  simp only [add_ids_to_pictos]
  rw [h2, hn]

/-- C9 witness: the once-annotated one-element list annotates to itself. -/
theorem annotate_idempotent_witness :
    add_ids_to_pictos (JVal.arr [JVal.obj [("id", JVal.num (Int.ofNat 1))]]) =
      .ok (JVal.arr [JVal.obj [("id", JVal.num (Int.ofNat 1))]], 1) :=
  annotate_idempotent [JVal.obj []]
    (JVal.arr [JVal.obj [("id", JVal.num (Int.ofNat 1))]]) 1 rfl

/-- C10: the annotator is deterministic — the document it would write and
the count it would return are a function of the input file's content alone,
so two runs over filesystems agreeing on the input path produce the same
outcome. -/
theorem annotate_deterministic (fs1 fs2 : FS) (path : String)
    (h : fs1.files path = fs2.files path) :
    annotateResult (fs1.files path) path = annotateResult (fs2.files path) path := by
  rw [h]

/-- A filesystem holding the empty list at every path, everything writable. -/
def listFSa : FS := ⟨fun _ => some (.json (.arr [])), fun _ => true⟩

/-- The same file contents as `listFSa` but nothing writable: the two differ
everywhere except in content. -/
def listFSb : FS := ⟨fun _ => some (.json (.arr [])), fun _ => false⟩

/-- C10 witness: two distinct filesystems with the same input file content
give the same annotation outcome. -/
theorem annotate_deterministic_witness :
    annotateResult (listFSa.files main_input_file) main_input_file =
      annotateResult (listFSb.files main_input_file) main_input_file :=
  annotate_deterministic listFSa listFSb main_input_file rfl
